import Mathlib

/-!
Verification development for the context-processing core of a JSON-LD
library (src/context.rs plus its thin declaration files).

The embedding mirrors src/context.rs statement by statement:

* `Context`, `Term` embed the structs of the same names.  The external
  `url::Url` type is embedded as its string form, because the only `Url`
  operations the source can reach are shallowly modelled (`urlParse`,
  `urlJoin`, `urlJoinChecked`) and are in fact dead on every path the
  theorems below exercise.
* JSON values (`serde_json::Value`) are embedded as `Value`, with objects
  as association lists.  `serde_json`'s default map is a BTreeMap whose
  key iteration is sorted; the embedding iterates objects in list order,
  and every concrete input below is written with its keys already in
  sorted order so the iteration order coincides.
* Rust's `&mut self` / `&mut defined` mutation is embedded by explicit
  state passing: `create_term_definition` and `expand_iri` return the
  updated context and defined-map.
* Fallible code returns `Res α = Except Fail α`.  A Rust panic
  (`unimplemented!()`, `Option::unwrap` on `None`) is a distinguished
  `Fail.panic` outcome tagged with its site; running out of fuel for the
  mutual recursion is the separate `Fail.outOfFuel` outcome.
* The two IRI predicates of the source have `unimplemented!()` bodies, so
  the embedded functions take them as an explicit `Impls` parameter:
  `srcImpls` is the source as written (both predicates panic), and
  `specImpls` supplies predicates modelled from the spec for the one
  claim whose deciding code is otherwise missing.
-/

/-- The error enum of the crate (`error.rs` is referenced from `lib.rs`
but its file is not part of the sources; the variant list is
reconstructed from the uses in `context.rs` and the spec's error
taxonomy, which names `CyclicIRIMapping` / `InvalidIRIMapping` as
`CyclicIdentifierMapping` / `InvalidIdentifierMapping`). -/
inductive JsonLdError
  | invalidBaseIRI
  | invalidVocabMapping
  | invalidDefaultLanguage
  | invalidLocalContext
  | keywordRedefinition
  | cyclicIRIMapping
  | invalidTermDefinition
  | invalidTypeMapping
  | invalidReverseProperty
  | invalidIRIMapping
  | recursiveContextInclusion
  | loadingRemoteContextFailed
deriving DecidableEq, Repr

/-- Panic sites of src/context.rs: the `unimplemented!()` in the string
branch of `process` (line 79), the `unimplemented!()` bodies of
`is_absolute_iri` (line 416) and `is_relative_iri` (line 420), and the
`local_context.get(term).unwrap()` of `create_term_definition`
(line 186). -/
inductive PanicKind
  | stringContextUnimplemented
  | isAbsoluteIriUnimplemented
  | isRelativeIriUnimplemented
  | termPayloadUnwrap
deriving DecidableEq, Repr

/-- Failure channel: a returned `JsonLdError`, a panic, or exhaustion of
the fuel that bounds the source's mutual recursion. -/
inductive Fail
  | err (e : JsonLdError)
  | panic (p : PanicKind)
  | outOfFuel
deriving DecidableEq, Repr

/-- Result type of the embedded fallible functions. -/
abbrev Res (α : Type) : Type := Except Fail α

/-- Embedding of `serde_json::Value`; objects are association lists. -/
inductive Value
  | null
  | bool (b : Bool)
  | num (n : Int)
  | str (s : String)
  | arr (xs : List Value)
  | obj (m : List (String × Value))

/-- Embedding of `struct Term` (src/context.rs lines 15-22). -/
structure Term where
  iri_mapping : String
  reverse : Bool
  type_mapping : Option String
  language_mapping : Option String
  container_mapping : Option String
deriving DecidableEq, Repr

/-- Embedding of `struct Context` (src/context.rs lines 8-13); `base`
holds the string form of the `url::Url`. -/
structure Context where
  base : Option String
  vocab : Option String
  terms : List (String × Term)
deriving DecidableEq, Repr

/-- `HashMap::get` / `BTreeMap::get` on an association list. -/
def alookup {α : Type} : List (String × α) → String → Option α
  | [], _ => none
  | (k, v) :: rest, key => if k = key then some v else alookup rest key

/-- `HashMap::insert` (replace an existing binding, else append). -/
def ainsert {α : Type} : List (String × α) → String → α → List (String × α)
  | [], key, v => [(key, v)]
  | (k, v') :: rest, key, v =>
    if k = key then (key, v) :: rest else (k, v') :: ainsert rest key v

/-- `HashMap::remove`. -/
def aremove {α : Type} : List (String × α) → String → List (String × α)
  | [], _ => []
  | (k, v) :: rest, key =>
    if k = key then aremove rest key else (k, v) :: aremove rest key

/-- Byte index of the first `:` of a character list (`str::find(":")`). -/
def colonIdx : List Char → Option Nat
  | [] => none
  | c :: cs => if c = ':' then some 0 else (colonIdx cs).map (· + 1)

/-- `str::find(":")` on the embedded string. -/
def findColon (s : String) : Option Nat := colonIdx s.data

/-- First half of Rust's `split_at(i)`: the characters before index `i`. -/
def strTake (s : String) (i : Nat) : String := ⟨s.data.take i⟩

/-- Second half of Rust's `split_at(i)`: the characters from index `i`
on (for a split at a colon this keeps the colon, exactly as
`split_at` does). -/
def strDrop (s : String) (i : Nat) : String := ⟨s.data.drop i⟩

/-- ASCII lowering of one character, shallow model of the character
lowering performed by Rust's `str::to_lowercase` (ASCII fragment; the
language tags the source lowers are ASCII). -/
def charLower (c : Char) : Char :=
  if 'A' ≤ c ∧ c ≤ 'Z' then Char.ofNat (c.toNat + 32) else c

/-- `str::to_lowercase` on the embedded string. -/
def strLower (s : String) : String := ⟨s.data.map charLower⟩

/-- `str::starts_with` on character lists. -/
def charsStart : List Char → List Char → Bool
  | _, [] => true
  | [], _ :: _ => false
  | a :: as, b :: bs => a = b && charsStart as bs

/-- `s.starts_with(p)`. -/
def strStarts (s p : String) : Bool := charsStart s.data p.data

/-- Embedding of `fn is_keyword` (src/context.rs lines 407-413).  The
match arms are copied verbatim; note that `"@base"` is not among
them. -/
def is_keyword (val : String) : Bool :=
  val = "@container" || val = "@context" || val = "@graph" || val = "@id" ||
  val = "@index" || val = "@language" || val = "@list" || val = "@reverse" ||
  val = "@set" || val = "@type" || val = "@value" || val = "@vocab"

/-- Shallow model of the external `url::Url::parse` (url crate, not part
of this repository): parsing keeps the string.  Dead code in every
theorem below: under `srcImpls` the guard `is_absolute_iri` panics
before `Url::parse` is reached, and no `specImpls` theorem touches
`@base`. -/
def urlParse (s : String) : Option String := some s

/-- Shallow model of the external `url::Url::join` as used at
src/context.rs line 104 (`base.join(&s)` with an error check).  Dead
code in every theorem below, for the same reason as `urlParse`. -/
def urlJoinChecked (b s : String) : Option String := some (b ++ s)

/-- Shallow model of the external `url::Url::join` as used at
src/context.rs line 399 (`join(value).unwrap()`).  Dead code in every
theorem below: every `expand_iri` call in the source passes
`relative = false`. -/
def urlJoin (b s : String) : String := b ++ s

/-- The two IRI predicates of src/context.rs, as an explicit parameter:
their bodies in the source are `unimplemented!()`, so the functions that
call them are embedded generically over the predicates' behaviour. -/
structure Impls where
  is_absolute_iri : String → Res Bool
  is_relative_iri : String → Res Bool

/-- The source as written: both predicates are `unimplemented!()`,
i.e. they panic (src/context.rs lines 415-421). -/
def srcImpls : Impls where
  is_absolute_iri := fun _ => .error (.panic .isAbsoluteIriUnimplemented)
  is_relative_iri := fun _ => .error (.panic .isRelativeIriUnimplemented)

/-- Modelled from the spec: the bodies of `is_absolute_iri` and
`is_relative_iri` are missing from the source (`unimplemented!()`, named
by the spec as unresolved stubs), so this supplies the spec's glossary
meaning — an absolute identifier is a fully-qualified identifier with a
scheme, i.e. it has a colon with a nonempty scheme part before it, and a
relative identifier is one that is not absolute. -/
def is_absolute_iri_spec (s : String) : Bool :=
  match findColon s with
  | some i => decide (0 < i)
  | none => false

/-- Modelled from the spec: predicate implementations for the stubbed
`is_absolute_iri` / `is_relative_iri`, wrapping `is_absolute_iri_spec`
as non-panicking functions. -/
def specImpls : Impls where
  is_absolute_iri := fun s => .ok (is_absolute_iri_spec s)
  is_relative_iri := fun s => .ok (!is_absolute_iri_spec s)

/-- Embedding of `Context::new` (src/context.rs lines 25-31). -/
def Context.new : Context := ⟨none, none, []⟩

/-- Embedding of `Context::from_base` (src/context.rs lines 33-39). -/
def Context.from_base (base : Option String) : Context := ⟨base, none, []⟩

mutual

/-- Embedding of `Context::create_term_definition` (src/context.rs
lines 168-341), with fuel bounding the mutual recursion and the
context/defined-map state threaded explicitly.  Step 13 (the `@type`
entry, lines 216-232) is the separate `resolve_type_mapping` below.
Faithful points worth noting against the source: the payload is looked
up with `unwrap` before the keyword check (lines 186, 189); a
bare-string payload is normalized to an object under the key `"@id"`
(lines 197-204) but step 16 then reads the key `"id"` (line 294); and on
every non-reverse path the computed `definition_iri_mapping` is
dropped — the source has no store of the definition and no marking of
the term as defined after the match, it just returns `Ok(())`
(line 340). -/
def create_term_definition (impls : Impls) (fuel0 : Nat) (ctx0 : Context)
    (local_context : List (String × Value)) (term : String)
    (defined0 : List (String × Bool)) : Res (Context × List (String × Bool)) :=
  match fuel0 with
  | 0 => .error .outOfFuel
  | fuel + 1 =>
    -- 1
    match alookup defined0 term with
    | some true => .ok (ctx0, defined0)
    | some false => .error (.err .cyclicIRIMapping)
    | none =>
      -- 2
      let defined := ainsert defined0 term false
      -- 3: local_context.get(term).unwrap()
      match alookup local_context term with
      | none => .error (.panic .termPayloadUnwrap)
      | some rawValue =>
        -- 5
        if is_keyword term then
          .error (.err .keywordRedefinition)
        else
          -- 7
          let ctx := { ctx0 with terms := aremove ctx0.terms term }
          -- 9: a bare string S becomes the object with entry "@id" -> S
          let value := match rawValue with
            | .str s => Value.obj [("@id", .str s)]
            | v => v
          -- 10
          match value with
          | .obj vmap =>
            create_term_definition_obj impls fuel ctx local_context term defined vmap
          | _ => .error (.err .invalidTermDefinition)

/-- Steps 13-19 of `create_term_definition` (src/context.rs
lines 208-338): the body of the `Value::Object` arm of step 10, taking
the normalized payload object.  Takes one fuel step of its own so the
mutual recursion stays structural on fuel. -/
def create_term_definition_obj (impls : Impls) (fuel0 : Nat) (ctx0 : Context)
    (local_context : List (String × Value)) (term : String)
    (defined0 : List (String × Bool)) (vmap : List (String × Value)) :
    Res (Context × List (String × Bool)) :=
  match fuel0 with
  | 0 => .error .outOfFuel
  | fuel + 1 => do
    -- 13: the "@type" entry, resolved before "@reverse"
    let (definition_type_mapping, ctx, defined) ←
      resolve_type_mapping impls fuel ctx0 local_context defined0 vmap
    -- 14
    match alookup vmap "@reverse" with
    | some rv =>
      -- 14.1
      if (alookup vmap "@id").isSome || (alookup vmap "@nest").isSome then
        .error (.err .invalidReverseProperty)
      else
        match rv with
        | .str rs => do
          -- 14.3
          let (id, ctx, defined) ←
            expand_iri impls fuel ctx rs false true local_context defined
          let b ← impls.is_absolute_iri id
          if !b then .error (.err .invalidIRIMapping)
          else do
            -- 14.4
            let definition_container_mapping ←
              match alookup vmap "@container" with
              | none => pure (none : Option String)
              | some .null => pure (none : Option String)
              | some (.str s) =>
                if s = "@set" || s = "@index" then pure (some s)
                else .error (.err .invalidReverseProperty)
              | some _ => .error (.err .invalidReverseProperty)
            -- 14.5, 14.6: the one place a definition is stored
            let stored : Term :=
              { iri_mapping := id
                reverse := true
                type_mapping := definition_type_mapping
                language_mapping := none
                container_mapping := definition_container_mapping }
            let ctx := { ctx with terms := ainsert ctx.terms term stored }
            let defined := ainsert defined term true
            .ok (ctx, defined)
        | _ => .error (.err .invalidIRIMapping)
    | none =>
      -- 15, 16: the source reads the key "id" here, not "@id"
      match alookup vmap "id" with
      | some (.str s) =>
        if s ≠ term then do
          -- 16.3
          let (id, ctx, defined) ←
            expand_iri impls fuel ctx s false true local_context defined
          let b ← impls.is_absolute_iri id
          if !b && !is_keyword id then .error (.err .invalidIRIMapping)
          else
            -- definition_iri_mapping = id; never stored
            .ok (ctx, defined)
        else .ok (ctx, defined)
      | some _ => .error (.err .invalidIRIMapping)
      | none =>
        -- 17
        match findColon term with
        | some i =>
          let pre := strTake term i
          do
            -- 17.1
            let (ctx, defined) ←
              if (alookup local_context pre).isSome then
                create_term_definition impls fuel ctx local_context pre defined
              else pure (ctx, defined)
            -- 17.2 / 17.3 compute definition_iri_mapping; never stored
            .ok (ctx, defined)
        | none =>
          -- 19: definition_iri_mapping = vocab + term; never stored
          match ctx.vocab with
          | some _ => .ok (ctx, defined)
          | none => .error (.err .invalidIRIMapping)

/-- Step 13 of `create_term_definition` (src/context.rs lines 216-232):
resolve the payload's `@type` entry, if any, into the definition's type
mapping.  A string value is expanded vocab-relatively and must be
`@id`, `@vocab` or an absolute identifier (the predicate short-circuits
after the two keyword comparisons, as Rust's `||` does); a non-string
value is `InvalidTypeMapping`.  Takes one fuel step of its own so the
mutual recursion stays structural on fuel. -/
def resolve_type_mapping (impls : Impls) (fuel0 : Nat) (ctx0 : Context)
    (local_context : List (String × Value)) (defined0 : List (String × Bool))
    (vmap : List (String × Value)) :
    Res (Option String × Context × List (String × Bool)) :=
  match fuel0 with
  | 0 => .error .outOfFuel
  | fuel + 1 =>
    match alookup vmap "@type" with
    | none => pure ((none : Option String), ctx0, defined0)
    | some (.str t) => do
      -- 13.2
      let (t, ctx, defined) ←
        expand_iri impls fuel ctx0 t false true local_context defined0
      if t = "@id" || t = "@vocab" then
        pure (some t, ctx, defined)
      else do
        let b ← impls.is_absolute_iri t
        if b then pure (some t, ctx, defined)
        else .error (.err .invalidTypeMapping)
    | some _ => .error (.err .invalidTypeMapping)

/-- Embedding of `Context::expand_iri` (src/context.rs lines 343-404).
Faithful points worth noting: the split at the first colon uses Rust's
`split_at`, so the suffix keeps the colon — the concatenations of steps
5.4 return `iri_mapping + ":" + rest`, and the `suffix.starts_with("//")`
guard of step 5.2 can never fire. -/
def expand_iri (impls : Impls) (fuel0 : Nat) (ctx1 : Context) (value : String)
    (relative : Bool) (vocab : Bool) (local_context : List (String × Value))
    (defined1 : List (String × Bool)) :
    Res (String × Context × List (String × Bool)) :=
  match fuel0 with
  | 0 => .error .outOfFuel
  | fuel + 1 =>
    let ctx := ctx1
    let defined := defined1
    -- 1
    if is_keyword value then .ok (value, ctx, defined)
    else do
      -- 2
      let (ctx, defined) ←
        if (alookup local_context value).isSome &&
            (match alookup defined value with
             | some b => !b
             | none => false) then
          create_term_definition impls fuel ctx local_context value defined
        else pure (ctx, defined)
      -- 4
      match (if vocab then alookup ctx.terms value else none) with
      | some t => .ok (t.iri_mapping, ctx, defined)
      | none =>
        -- 5
        match findColon value with
        | some i =>
          -- 5.1: Rust split_at — the suffix keeps the colon
          let pre := strTake value i
          let suf := strDrop value i
          -- 5.2
          if pre = "_" || strStarts suf "//" then .ok (value, ctx, defined)
          else do
            -- 5.3
            let (ctx, defined) ←
              if (alookup local_context pre).isSome &&
                  (match alookup defined pre with
                   | some b => !b
                   | none => true) then
                create_term_definition impls fuel ctx local_context pre defined
              else pure (ctx, defined)
            -- 5.4 / 5.5
            match alookup ctx.terms pre with
            | some v => .ok (v.iri_mapping ++ suf, ctx, defined)
            | none => .ok (value, ctx, defined)
        | none =>
          -- 6
          if vocab && ctx.vocab.isSome then
            .ok ((ctx.vocab.getD "") ++ value, ctx, defined)
          else if relative && ctx.base.isSome then
            .ok (urlJoin (ctx.base.getD "") value, ctx, defined)
          else
            -- 7
            .ok (value, ctx, defined)

end

/-- The 5.12 loop of `Context::process` (src/context.rs lines 150-157):
iterate the keys of the object fragment, skipping the three directive
keys, and create a term definition for each remaining key against the
same fragment and the shared defined-map. -/
def defineLoop (impls : Impls) (fuel : Nat) (lc : List (String × Value)) :
    Context → List (String × Value) → List (String × Bool) →
    Res (Context × List (String × Bool))
  | ctx, [], defined => .ok (ctx, defined)
  | ctx, (term, _) :: rest, defined =>
    if term = "@base" || term = "@vocab" || term = "@language" then
      defineLoop impls fuel lc ctx rest defined
    else do
      let (ctx, defined) ← create_term_definition impls fuel ctx lc term defined
      defineLoop impls fuel lc ctx rest defined

/-- Step 5.7 of `Context::process` (src/context.rs lines 84-111): the
`@base` directive, honoured only when the remote-context list is empty;
null clears the base, an absolute string replaces it, a relative string
joins onto a present current base, and anything else is
`InvalidBaseIRI`. -/
def processBase (impls : Impls) (ctx : Context) (m : List (String × Value))
    (remote_contexts : List String) : Res Context :=
  match alookup m "@base" with
  | some bval =>
    if remote_contexts.isEmpty then
      match bval with
      | .null => pure { ctx with base := (none : Option String) }
      | .str s => do
        -- 5.7.3
        let b ← impls.is_absolute_iri s
        if b then
          match urlParse s with
          | some u => pure { ctx with base := some u }
          | none => .error (.err .invalidBaseIRI)
        else
          -- 5.7.4
          match ctx.base with
          | some base => do
            let r ← impls.is_relative_iri s
            if r then
              match urlJoinChecked base s with
              | some u => pure { ctx with base := some u }
              | none => .error (.err .invalidBaseIRI)
            else pure ctx
          | none => pure ctx
      | _ => .error (.err .invalidBaseIRI)
    else pure ctx
  | none => pure ctx

/-- Step 5.8 of `Context::process` (src/context.rs lines 114-131): the
`@vocab` directive; null clears the vocab mapping, a string must satisfy
`is_absolute_iri`, anything else is `InvalidVocabMapping`. -/
def processVocab (impls : Impls) (ctx : Context) (m : List (String × Value)) :
    Res Context :=
  match alookup m "@vocab" with
  | none => pure ctx
  | some .null => pure { ctx with vocab := (none : Option String) }
  | some (.str s) => do
    let b ← impls.is_absolute_iri s
    if b then pure { ctx with vocab := some s }
    else .error (.err .invalidVocabMapping)
  | some _ => .error (.err .invalidVocabMapping)

/-- Step 5.9 of `Context::process` (src/context.rs lines 135-145): the
`@language` directive.  Faithful to the source, which writes to
`self.vocab` — `Null` clears `self.vocab` and a string stores its
lowercasing into `self.vocab`; the `Context` struct has no
default-language field at all. -/
def processLanguage (ctx : Context) (m : List (String × Value)) : Res Context :=
  match alookup m "@language" with
  | none => pure ctx
  | some .null => pure { ctx with vocab := (none : Option String) }
  | some (.str s) => pure { ctx with vocab := some (strLower s) }
  | some _ => .error (.err .invalidDefaultLanguage)

/-- The object-fragment case of `Context::process` (src/context.rs
lines 83-158): the three directive steps above, then the per-key
term-definition loop with a fresh defined-map. -/
def processObj (impls : Impls) (fuel : Nat) (ctx : Context)
    (m : List (String × Value)) (remote_contexts : List String) : Res Context := do
  let ctx ← processBase impls ctx m remote_contexts
  let ctx ← processVocab impls ctx m
  let ctx ← processLanguage ctx m
  -- 5.11, 5.12
  let (ctx, _) ← defineLoop impls fuel m ctx m []
  pure ctx

/-- The fragment loop of `Context::process` (src/context.rs lines
69-163): null resets to the base-only context, a string fragment hits
the `unimplemented!()` of line 79, an object is folded in, and any other
value is `InvalidLocalContext`. -/
def processLoop (impls : Impls) (fuel : Nat) :
    Context → List Value → List String → Res Context
  | ctx, [], _ => .ok ctx
  | ctx, c :: rest, remote_contexts =>
    match c with
    | .null => processLoop impls fuel (Context.from_base ctx.base) rest remote_contexts
    | .str _ => .error (.panic .stringContextUnimplemented)
    | .obj m => do
      let ctx ← processObj impls fuel ctx m remote_contexts
      processLoop impls fuel ctx rest remote_contexts
    | _ => .error (.err .invalidLocalContext)

/-- Embedding of `Context::process` (src/context.rs lines 57-166): a
non-array local context is wrapped into a one-element sequence, then the
fragments are folded in order. -/
def process (impls : Impls) (fuel : Nat) (ctx : Context) (local_context : Value)
    (remote_contexts : List String) : Res Context :=
  -- 4
  let lcs := match local_context with
    | .arr a => a
    | v => [v]
  processLoop impls fuel ctx lcs remote_contexts

/-! ## Helper lemmas -/

theorem res_bind_ok {α β : Type} (x : α) (f : α → Res β) :
    (Except.ok x >>= f : Res β) = f x := rfl

theorem res_bind_error {α β : Type} (e : Fail) (f : α → Res β) :
    ((Except.error e : Res α) >>= f) = Except.error e := rfl

theorem res_pure {α : Type} (x : α) : (pure x : Res α) = Except.ok x := rfl

/-- Inversion of a successful bind in the `Res` monad. -/
theorem bind_eq_ok {α β : Type} {a : Res α} {f : α → Res β} {r : β}
    (h : a >>= f = .ok r) : ∃ x, a = .ok x ∧ f x = .ok r := by
  cases a with
  | error e => rw [res_bind_error] at h; cases h
  | ok x => exact ⟨x, rfl, by rwa [res_bind_ok] at h⟩

/-- A bind avoids a given failure value when both sides do. -/
theorem bind_ne_fail {α β : Type} {bad : Fail} {a : Res α} {f : α → Res β}
    (ha : a ≠ .error bad) (hf : ∀ x, f x ≠ .error bad) : a >>= f ≠ .error bad := by
  cases a with
  | error e =>
    rw [res_bind_error]
    intro h
    apply ha
    cases h
    rfl
  | ok x => rw [res_bind_ok]; exact hf x

/-- Inserting then looking up the same key yields the inserted value. -/
theorem alookup_ainsert_self {α : Type} (m : List (String × α)) (k : String) (v : α) :
    alookup (ainsert m k v) k = some v := by
  induction m with
  | nil => simp [ainsert, alookup]
  | cons p rest ih =>
    obtain ⟨k', v'⟩ := p
    by_cases hk : k' = k
    · simp [ainsert, alookup, hk]
    · simp [ainsert, alookup, hk, ih]

/-- A key carried by a member pair is found by `alookup`. -/
theorem alookup_isSome_of_mem {α : Type} {m : List (String × α)} {k : String} {v : α}
    (h : (k, v) ∈ m) : (alookup m k).isSome := by
  induction m with
  | nil => cases h
  | cons p rest ih =>
    obtain ⟨k', v'⟩ := p
    rcases List.mem_cons.mp h with h1 | h2
    · cases h1
      simp [alookup]
    · by_cases hk : k' = k
      · simp [alookup, hk]
      · simpa [alookup, hk] using ih h2

/-! ## Claim theorems: concrete evaluations -/

/-- C1: the claim that a successful non-reverse term definition is stored
in the term table and marked complete fails on the code.  With vocabulary
`http://example.com/` and term `name` having no explicit `@id`, the term
definition succeeds but the resulting context's term table is still
empty: `create_term_definition` computes the vocabulary-based mapping and
returns without storing anything (src/context.rs has no storing step
after line 335 for non-reverse definitions). -/
theorem c1_term_definition_not_stored :
    process srcImpls 100 ⟨none, some "http://example.com/", []⟩
      (.obj [("name", .obj [])]) [] =
    .ok ⟨none, some "http://example.com/", []⟩ := rfl

/-- C2: the claim that an `@id` entry of the payload becomes the
definition's iri mapping fails on the code, which reads the key `"id"`
instead of `"@id"` (src/context.rs line 294).  A payload
`{"@id": "http://example.com/n"}` for term `name` is therefore treated
as having no identifier: without a vocabulary the definition fails with
`InvalidIRIMapping`, and with a vocabulary it succeeds while ignoring
the `@id` value entirely (and stores nothing). -/
theorem c2_at_id_key_ignored :
    process srcImpls 100 ⟨none, none, []⟩
      (.obj [("name", .obj [("@id", .str "http://example.com/n")])]) [] =
      .error (.err .invalidIRIMapping) ∧
    process srcImpls 100 ⟨none, some "http://v/", []⟩
      (.obj [("name", .obj [("@id", .str "http://example.com/n")])]) [] =
      .ok ⟨none, some "http://v/", []⟩ :=
  ⟨rfl, rfl⟩

/-- C3: the claim that `foaf:Person` resolves to the prefix mapping
concatenated with the suffix after (not including) the colon fails on
the code: Rust's `split_at` keeps the colon in the suffix, so
`expand_iri` returns `http://xmlns.com/foaf/0.1/:Person` (colon
included) instead of `http://xmlns.com/foaf/0.1/Person`. -/
theorem c3_compact_iri_keeps_colon :
    expand_iri srcImpls 100
      ⟨none, none, [("foaf", ⟨"http://xmlns.com/foaf/0.1/", false, none, none, none⟩)]⟩
      "foaf:Person" false true [] [] =
    .ok ("http://xmlns.com/foaf/0.1/:Person",
      ⟨none, none, [("foaf", ⟨"http://xmlns.com/foaf/0.1/", false, none, none, none⟩)]⟩,
      []) := rfl

/-- C4: the claim that context processing reports all failures as tagged
errors and never panics fails on the code: a string fragment hits the
`unimplemented!()` at src/context.rs line 79 instead of dereferencing
the context, and an object fragment whose `@vocab` is a string hits the
`unimplemented!()` body of `is_absolute_iri` (line 416). -/
theorem c4_stub_panics :
    process srcImpls 100 ⟨none, none, []⟩ (.str "http://example.com/ctx") [] =
      .error (.panic .stringContextUnimplemented) ∧
    process srcImpls 100 ⟨none, none, []⟩
      (.obj [("@vocab", .str "http://example.com/")]) [] =
      .error (.panic .isAbsoluteIriUnimplemented) :=
  ⟨rfl, rfl⟩

/-- C5: the claim that `@language` updates only the default language and
leaves the vocab mapping unchanged fails on the code: the `Context`
struct has no default-language field, and the `@language` branch of
`process` (src/context.rs lines 135-145) writes to `self.vocab` —
`@language: null` clears the vocab mapping and a string `@language`
stores its lowercasing into the vocab mapping. -/
theorem c5_language_directive_writes_vocab :
    process srcImpls 100 ⟨none, some "http://example.com/", []⟩
      (.obj [("@language", .null)]) [] = .ok ⟨none, none, []⟩ ∧
    process srcImpls 100 ⟨none, none, []⟩
      (.obj [("@language", .str "EN")]) [] = .ok ⟨none, some "en", []⟩ :=
  ⟨rfl, rfl⟩

/-- C6: the claim that the self-referential fragment
`{"a": {"@id": "b"}, "b": {"@id": "a:x"}}` fails with the cyclic-mapping
error fails on the code: because `create_term_definition` reads the key
`"id"` instead of `"@id"` (src/context.rs line 294), the `@id` entries
are ignored, term `a` falls through to the vocabulary step, and
processing fails with `InvalidIRIMapping` — the cycle detector is never
reached. -/
theorem c6_cycle_example_not_cyclic_error :
    process srcImpls 100 ⟨none, none, []⟩
      (.obj [("a", .obj [("@id", .str "b")]), ("b", .obj [("@id", .str "a:x")])]) [] =
    .error (.err .invalidIRIMapping) := rfl

/-- C7: the claim that every keyword of the reserved set, `@base`
included, is protected by `KeywordRedefinition` fails on the code:
`is_keyword` (src/context.rs lines 407-413) omits `"@base"`, so a term
definition for `@base` forced through prefix resolution is not rejected
as a keyword redefinition — with fragment
`{"@base": null, "t": {"@type": "@base:x"}}` the recursive definition of
`@base` proceeds past the keyword check and fails with
`InvalidTermDefinition` instead. -/
theorem c7_base_not_keyword_protected :
    is_keyword "@base" = false ∧
    process srcImpls 100 ⟨none, none, []⟩
      (.obj [("@base", .null), ("t", .obj [("@type", .str "@base:x")])]) [] =
    .error (.err .invalidTermDefinition) :=
  ⟨rfl, rfl⟩

/-- C10: processing an empty array of fragments is the identity on the
context: `process` normalizes the array to an empty fragment sequence
and the fold returns the context unchanged, whatever the
already-loaded-URLs list is. -/
theorem c10_empty_array_identity :
    ∀ (impls : Impls) (fuel : Nat) (ctx : Context) (remote_contexts : List String),
      process impls fuel ctx (.arr []) remote_contexts = .ok ctx :=
  fun _ _ _ _ => rfl

/-! ## Claim C8: reverse term definitions -/

/-- C8 counterexample: the claim that a stored reverse term definition
carries no type mapping is false on the code.  With payload
`{"@reverse": "http://example.com/r", "@type": "@id"}` the definition
succeeds and the stored term has `reverse = true` together with
`type_mapping = some "@id"`: the `@type` entry resolved at step 13 is
carried into the definition stored by the reverse branch.  The stubbed
`is_absolute_iri` is supplied by `specImpls` (modelled from the spec) to
let the reverse branch complete. -/
theorem c8_reverse_counterexample :
    process specImpls 100 ⟨none, none, []⟩
      (.obj [("r", .obj [("@reverse", .str "http://example.com/r"),
                         ("@type", .str "@id")])]) [] =
      .ok ⟨none, none, [("r", ⟨"http://example.com/r", true, some "@id", none, none⟩)]⟩ ∧
    (⟨"http://example.com/r", true, some "@id", none, none⟩ : Term).type_mapping ≠ none :=
  ⟨rfl, fun h => Option.noConfusion h⟩

/-- C8 (amended): for every term payload containing `@reverse` that is
successfully defined (a fresh definition, not the step-1 no-op), the
stored term definition has `reverse = true`, carries no
`language_mapping`, has a `container_mapping` restricted to
none / `@set` / `@index`, is marked complete, and retains exactly the
`type_mapping` that step 13 resolved from the payload's `@type` entry
(whatever the key order; `none` when `@type` is absent) — see the
counterexample for a retained mapping; moreover, once the step-13
resolution has succeeded, co-occurrence of `@reverse` with `@id` or
`@nest` fails with `InvalidReverseProperty`, and a `@container` value
outside {null, `@set`, `@index`} also fails with
`InvalidReverseProperty` once the reverse identifier has resolved to an
absolute one. -/
theorem c8_reverse_definition_shape :
    (∀ (impls : Impls) (fuel : Nat) (ctx : Context) (lc : List (String × Value))
      (term : String) (defined : List (String × Bool)) (vmap : List (String × Value))
      (ctx2 : Context) (defined2 : List (String × Bool)),
      alookup defined term = none →
      alookup lc term = some (.obj vmap) →
      (alookup vmap "@reverse").isSome →
      create_term_definition impls fuel ctx lc term defined = .ok (ctx2, defined2) →
      ∃ (t : Term) (dtm : Option String) (ctxT : Context)
        (dT : List (String × Bool)) (fr : Nat),
        alookup ctx2.terms term = some t ∧ t.reverse = true ∧
        t.language_mapping = none ∧
        (t.container_mapping = none ∨ t.container_mapping = some "@set" ∨
          t.container_mapping = some "@index") ∧
        alookup defined2 term = some true ∧
        resolve_type_mapping impls fr { ctx with terms := aremove ctx.terms term }
          lc (ainsert defined term false) vmap = .ok (dtm, ctxT, dT) ∧
        t.type_mapping = dtm) ∧
    (∀ (impls : Impls) (m : Nat) (ctx : Context) (lc : List (String × Value))
      (term : String) (defined : List (String × Bool)) (vmap : List (String × Value))
      (dtm : Option String) (ctxT : Context) (dT : List (String × Bool)),
      alookup defined term = none →
      alookup lc term = some (.obj vmap) →
      is_keyword term = false →
      (alookup vmap "@reverse").isSome →
      ((alookup vmap "@id").isSome || (alookup vmap "@nest").isSome) = true →
      resolve_type_mapping impls m { ctx with terms := aremove ctx.terms term }
        lc (ainsert defined term false) vmap = .ok (dtm, ctxT, dT) →
      create_term_definition impls (m + 2) ctx lc term defined =
        .error (.err .invalidReverseProperty)) ∧
    (∀ (impls : Impls) (m : Nat) (ctx : Context) (lc : List (String × Value))
      (term : String) (defined : List (String × Bool)) (vmap : List (String × Value))
      (rs : String) (dtm : Option String) (ctxT : Context) (dT : List (String × Bool))
      (id : String) (ctxE : Context) (dE : List (String × Bool)) (cv : Value),
      alookup defined term = none →
      alookup lc term = some (.obj vmap) →
      is_keyword term = false →
      alookup vmap "@reverse" = some (.str rs) →
      alookup vmap "@id" = none →
      alookup vmap "@nest" = none →
      resolve_type_mapping impls m { ctx with terms := aremove ctx.terms term }
        lc (ainsert defined term false) vmap = .ok (dtm, ctxT, dT) →
      expand_iri impls m ctxT rs false true lc dT = .ok (id, ctxE, dE) →
      impls.is_absolute_iri id = .ok true →
      alookup vmap "@container" = some cv →
      cv ≠ .null →
      (∀ s, cv = .str s → s ≠ "@set" ∧ s ≠ "@index") →
      create_term_definition impls (m + 2) ctx lc term defined =
        .error (.err .invalidReverseProperty)) := by
  refine ⟨?_, ?_, ?_⟩
  · -- success shape, with retention of the step-13 type mapping
    intro impls fuel ctx lc term defined vmap ctx2 defined2 h1 h2 h3 h
    cases fuel with
    | zero => simp [create_term_definition] at h
    | succ n =>
      rw [create_term_definition, h1, h2] at h
      try dsimp only at h
      by_cases hk : is_keyword term
      · simp [hk] at h
      · rw [if_neg hk] at h
        try dsimp only at h
        rcases n with _ | m
        · simp [create_term_definition_obj] at h
        rw [create_term_definition_obj] at h
        obtain ⟨⟨dtm, ctx1, d1⟩, hT, h⟩ := bind_eq_ok h
        obtain ⟨rv, hrv⟩ := Option.isSome_iff_exists.mp h3
        try dsimp only at h
        rw [hrv] at h
        try dsimp only at h
        split at h
        · simp at h
        · cases rv with
          | str rs =>
            try dsimp only at h
            obtain ⟨⟨id, ctxE, dE⟩, hE, h⟩ := bind_eq_ok h
            try dsimp only at h
            obtain ⟨b, hB, h⟩ := bind_eq_ok h
            try dsimp only at h
            split at h
            · simp at h
            · split at h
              · -- no "@container" entry: container mapping is none
                simp only [res_pure, res_bind_ok, Except.ok.injEq, Prod.mk.injEq] at h
                obtain ⟨hc2, hd2⟩ := h
                subst hc2
                subst hd2
                exact ⟨_, dtm, ctx1, d1, m, alookup_ainsert_self _ _ _, rfl, rfl,
                  Or.inl rfl, alookup_ainsert_self _ _ _, hT, rfl⟩
              · -- "@container": null clears the container mapping
                simp only [res_pure, res_bind_ok, Except.ok.injEq, Prod.mk.injEq] at h
                obtain ⟨hc2, hd2⟩ := h
                subst hc2
                subst hd2
                exact ⟨_, dtm, ctx1, d1, m, alookup_ainsert_self _ _ _, rfl, rfl,
                  Or.inl rfl, alookup_ainsert_self _ _ _, hT, rfl⟩
              · -- "@container": a string must be "@set" or "@index"
                split at h
                · next hset =>
                  simp only [res_pure, res_bind_ok, Except.ok.injEq, Prod.mk.injEq] at h
                  obtain ⟨hc2, hd2⟩ := h
                  subst hc2
                  subst hd2
                  refine ⟨_, dtm, ctx1, d1, m, alookup_ainsert_self _ _ _, rfl, rfl,
                    ?_, alookup_ainsert_self _ _ _, hT, rfl⟩
                  rcases Bool.or_eq_true_iff.mp hset with hx | hx
                  · exact Or.inr (Or.inl (by rw [of_decide_eq_true hx]))
                  · exact Or.inr (Or.inr (by rw [of_decide_eq_true hx]))
                · rw [res_bind_error] at h
                  simp at h
              · rw [res_bind_error] at h
                simp at h
          | null => simp at h
          | bool b => simp at h
          | num n => simp at h
          | arr xs => simp at h
          | obj m2 => simp at h
  · -- co-occurrence of "@reverse" with "@id" or "@nest"
    intro impls m ctx lc term defined vmap dtm ctxT dT h1 h2 hk hrev hco hres
    obtain ⟨rv, hrv⟩ := Option.isSome_iff_exists.mp hrev
    have e2 : m + 2 = Nat.succ (Nat.succ m) := rfl
    rw [e2, create_term_definition, h1, h2]
    try dsimp only
    rw [if_neg (by simp [hk])]
    try dsimp only
    rw [create_term_definition_obj]
    try dsimp only
    rw [hres, res_bind_ok]
    try dsimp only
    rw [hrv]
    try dsimp only
    rw [if_pos hco]
  · -- "@container" outside the allowed set
    intro impls m ctx lc term defined vmap rs dtm ctxT dT id ctxE dE cv
    intro h1 h2 hk hrv hid hnest hres hexp habs hcont hnull hstr
    have e2 : m + 2 = Nat.succ (Nat.succ m) := rfl
    rw [e2, create_term_definition, h1, h2]
    try dsimp only
    rw [if_neg (by simp [hk])]
    try dsimp only
    rw [create_term_definition_obj]
    try dsimp only
    rw [hres, res_bind_ok]
    try dsimp only
    rw [hrv]
    try dsimp only
    rw [if_neg (by simp [hid, hnest])]
    try dsimp only
    rw [hexp, res_bind_ok]
    try dsimp only
    rw [habs, res_bind_ok]
    try dsimp only
    simp only [Bool.not_true, Bool.false_eq_true, if_false]
    rw [hcont]
    cases cv with
    | null => exact absurd rfl hnull
    | str s =>
      obtain ⟨hs1, hs2⟩ := hstr s rfl
      try dsimp only
      split
      · next hset =>
        rcases Bool.or_eq_true_iff.mp hset with hx | hx
        · exact absurd (of_decide_eq_true hx) hs1
        · exact absurd (of_decide_eq_true hx) hs2
      · rfl
    | bool b =>
      try dsimp only
      rfl
    | num k =>
      try dsimp only
      rfl
    | arr xs =>
      try dsimp only
      rfl
    | obj m2 =>
      try dsimp only
      rfl
/-- C8 witness: the three parts of the reverse-definition theorem applied
at concrete inputs — the counterexample's payload for the success shape
and type-mapping retention, a payload with both `@reverse` and `@id` for
the co-occurrence clause, and a payload with `@container` `"@list"` for
the container clause — with every hypothesis discharged by evaluation. -/
theorem c8_reverse_definition_shape_witness :
    (∃ (t : Term) (dtm : Option String) (ctxT : Context)
      (dT : List (String × Bool)) (fr : Nat),
      alookup (Context.mk none none
        [("r", ⟨"http://example.com/r", true, some "@id", none, none⟩)]).terms "r" =
        some t ∧
      t.reverse = true ∧ t.language_mapping = none ∧
      (t.container_mapping = none ∨ t.container_mapping = some "@set" ∨
        t.container_mapping = some "@index") ∧
      alookup [("r", true)] "r" = some true ∧
      resolve_type_mapping specImpls fr ⟨none, none, []⟩
        [("r", .obj [("@reverse", .str "http://example.com/r"), ("@type", .str "@id")])]
        [("r", false)]
        [("@reverse", .str "http://example.com/r"), ("@type", .str "@id")] =
        .ok (dtm, ctxT, dT) ∧
      t.type_mapping = dtm) ∧
    create_term_definition specImpls 52 ⟨none, none, []⟩
      [("t", .obj [("@id", .str "x"), ("@reverse", .str "r")])] "t" [] =
      .error (.err .invalidReverseProperty) ∧
    create_term_definition specImpls 52 ⟨none, none, []⟩
      [("t", .obj [("@container", .str "@list"),
                   ("@reverse", .str "http://example.com/r")])] "t" [] =
      .error (.err .invalidReverseProperty) :=
  ⟨c8_reverse_definition_shape.1 specImpls 100 ⟨none, none, []⟩
      [("r", .obj [("@reverse", .str "http://example.com/r"), ("@type", .str "@id")])]
      "r" []
      [("@reverse", .str "http://example.com/r"), ("@type", .str "@id")]
      ⟨none, none, [("r", ⟨"http://example.com/r", true, some "@id", none, none⟩)]⟩
      [("r", true)] rfl rfl rfl rfl,
    c8_reverse_definition_shape.2.1 specImpls 50 ⟨none, none, []⟩
      [("t", .obj [("@id", .str "x"), ("@reverse", .str "r")])] "t" []
      [("@id", .str "x"), ("@reverse", .str "r")]
      none ⟨none, none, []⟩ [("t", false)] rfl rfl rfl rfl rfl rfl,
    c8_reverse_definition_shape.2.2 specImpls 50 ⟨none, none, []⟩
      [("t", .obj [("@container", .str "@list"),
                   ("@reverse", .str "http://example.com/r")])] "t" []
      [("@container", .str "@list"), ("@reverse", .str "http://example.com/r")]
      "http://example.com/r" none ⟨none, none, []⟩ [("t", false)]
      "http://example.com/r" ⟨none, none, []⟩ [("t", false)] (.str "@list")
      rfl rfl rfl rfl rfl rfl rfl rfl rfl rfl
      (fun h => Value.noConfusion h)
      (fun s h => by injection h with h2; subst h2; exact ⟨by decide, by decide⟩)⟩

/-! ## Claim C9: the term-payload lookup never panics -/

/-- Hypothesis on the predicate parameter: its results are never the
term-payload-unwrap panic.  Both `srcImpls` (whose predicates panic with
their own tags) and `specImpls` (whose predicates never fail) satisfy
it. -/
def NoPayloadPanicImpls (impls : Impls) : Prop :=
  (∀ s, impls.is_absolute_iri s ≠ .error (.panic .termPayloadUnwrap)) ∧
  (∀ s, impls.is_relative_iri s ≠ .error (.panic .termPayloadUnwrap))

/-- Core invariant behind claim C9: every recursive invocation of the
Term Definer issued with a term that is a key of the local fragment, and
every invocation of the step-13 resolver and the Identifier Resolver
whatever the arguments, avoids the panic of the unconditional payload
lookup — all recursive `create_term_definition` calls in the source are
guarded by a key-membership test on the fragment. -/
theorem term_definer_no_payload_panic (impls : Impls) (hi : NoPayloadPanicImpls impls) :
    ∀ fuel : Nat,
      (∀ ctx lc term defined, (alookup lc term).isSome →
        create_term_definition impls fuel ctx lc term defined ≠
          .error (.panic .termPayloadUnwrap)) ∧
      (∀ ctx lc term defined vmap,
        create_term_definition_obj impls fuel ctx lc term defined vmap ≠
          .error (.panic .termPayloadUnwrap)) ∧
      (∀ ctx lc defined vmap,
        resolve_type_mapping impls fuel ctx lc defined vmap ≠
          .error (.panic .termPayloadUnwrap)) ∧
      (∀ ctx value relative vocab lc defined,
        expand_iri impls fuel ctx value relative vocab lc defined ≠
          .error (.panic .termPayloadUnwrap)) := by
  intro fuel
  induction fuel with
  | zero =>
    refine ⟨?_, ?_, ?_, ?_⟩ <;> intros <;>
      simp [create_term_definition, create_term_definition_obj,
        resolve_type_mapping, expand_iri]
  | succ n ih =>
    obtain ⟨ihc, iho, ihr, ihe⟩ := ih
    refine ⟨?_, ?_, ?_, ?_⟩
    · -- create_term_definition at fuel n + 1
      intro ctx lc term defined hmem
      rw [create_term_definition]
      split
      · simp
      · simp
      · split
        · next hnone => rw [hnone] at hmem; simp at hmem
        · split
          · simp
          · split
            · exact iho _ _ _ _ _
            · dsimp only
              split
              · exact iho _ _ _ _ _
              all_goals simp
    · -- create_term_definition_obj at fuel n + 1
      intro ctx lc term defined vmap
      rw [create_term_definition_obj]
      refine bind_ne_fail (ihr _ _ _ _) ?_
      rintro ⟨dtm, ctx1, d1⟩
      try dsimp only
      split
      · -- "@reverse" present
        split
        · simp
        · split
          · refine bind_ne_fail (ihe _ _ _ _ _ _) ?_
            rintro ⟨id, ctxE, dE⟩
            try dsimp only
            refine bind_ne_fail (hi.1 _) ?_
            intro b
            split
            · simp
            · split
              · simp [res_pure, res_bind_ok]
              · simp [res_pure, res_bind_ok]
              · split
                · simp [res_pure, res_bind_ok]
                · rw [res_bind_error]; simp
              · rw [res_bind_error]; simp
          · simp
      · -- no "@reverse"
        split
        · split
          · refine bind_ne_fail (ihe _ _ _ _ _ _) ?_
            rintro ⟨id, ctxE, dE⟩
            try dsimp only
            refine bind_ne_fail (hi.1 _) ?_
            intro b
            split
            · simp
            · simp
          · simp
        · simp
        · split
          · try dsimp only
            split
            · next hpre =>
              refine bind_ne_fail (ihc _ _ _ _ hpre) ?_
              rintro ⟨c, d⟩
              simp
            · simp [res_pure, res_bind_ok]
          · split
            · simp
            · simp
    · -- resolve_type_mapping at fuel n + 1
      intro ctx lc defined vmap
      rw [resolve_type_mapping]
      split
      · simp [res_pure]
      · refine bind_ne_fail (ihe _ _ _ _ _ _) ?_
        rintro ⟨t, ctx1, d1⟩
        try dsimp only
        split
        · simp [res_pure]
        · refine bind_ne_fail (hi.1 _) ?_
          intro b
          split
          · simp [res_pure]
          · simp
      · simp
    · -- expand_iri at fuel n + 1
      intro ctx value relative vocab lc defined
      rw [expand_iri]
      try dsimp only
      split
      · simp
      · split
        · next hcond =>
          refine bind_ne_fail
            (ihc _ _ _ _ (And.left (Bool.and_eq_true_iff.mp hcond))) ?_
          rintro ⟨ctx2, d2⟩
          try dsimp only
          split
          · simp
          · split
            · split
              · simp
              · split
                · next hcond2 =>
                  refine bind_ne_fail
                    (ihc _ _ _ _ (And.left (Bool.and_eq_true_iff.mp hcond2))) ?_
                  rintro ⟨ctx3, d3⟩
                  try dsimp only
                  split
                  · simp
                  · simp
                · try simp only [res_pure, res_bind_ok]
                  try dsimp only
                  split
                  · simp
                  · simp
            · split
              · simp
              · split
                · simp
                · simp
        · try simp only [res_pure, res_bind_ok]
          try dsimp only
          split
          · simp
          · split
            · split
              · simp
              · split
                · next hcond2 =>
                  refine bind_ne_fail
                    (ihc _ _ _ _ (And.left (Bool.and_eq_true_iff.mp hcond2))) ?_
                  rintro ⟨ctx3, d3⟩
                  try dsimp only
                  split
                  · simp
                  · simp
                · try simp only [res_pure, res_bind_ok]
                  try dsimp only
                  split
                  · simp
                  · simp
            · split
              · simp
              · split
                · simp
                · simp

/-- The per-key loop of the Context Builder passes only keys of the
fragment to the Term Definer, so it cannot reach the payload-lookup
panic. -/
theorem defineLoop_no_payload_panic (impls : Impls) (hi : NoPayloadPanicImpls impls)
    (fuel : Nat) (lc : List (String × Value)) :
    ∀ (iter : List (String × Value)) (ctx : Context) (defined : List (String × Bool)),
      (∀ p ∈ iter, (alookup lc (Prod.fst p)).isSome) →
      defineLoop impls fuel lc ctx iter defined ≠
        .error (.panic .termPayloadUnwrap) := by
  intro iter
  induction iter with
  | nil => intro ctx defined _; simp [defineLoop]
  | cons p rest ih =>
    intro ctx defined hall
    obtain ⟨term, v⟩ := p
    rw [defineLoop]
    split
    · exact ih ctx defined fun q hq => hall q (List.mem_cons_of_mem _ hq)
    · refine bind_ne_fail
        ((term_definer_no_payload_panic impls hi fuel).1 _ _ _ _
          (hall (term, v) (List.mem_cons_self _ _))) ?_
      rintro ⟨ctx1, d1⟩
      exact ih ctx1 d1 fun q hq => hall q (List.mem_cons_of_mem _ hq)

/-- The `@base` directive step never reaches the payload-lookup panic. -/
theorem processBase_no_payload_panic (impls : Impls) (hi : NoPayloadPanicImpls impls)
    (ctx : Context) (m : List (String × Value)) (rc : List String) :
    processBase impls ctx m rc ≠ .error (.panic .termPayloadUnwrap) := by
  rw [processBase]
  split
  · split
    · split
      · simp [res_pure]
      · refine bind_ne_fail (hi.1 _) ?_
        intro b
        split
        · split
          · simp [res_pure]
          · simp
        · split
          · refine bind_ne_fail (hi.2 _) ?_
            intro r
            split
            · split
              · simp [res_pure]
              · simp
            · simp [res_pure]
          · simp [res_pure]
      · simp
    · simp [res_pure]
  · simp [res_pure]

/-- The `@vocab` directive step never reaches the payload-lookup panic. -/
theorem processVocab_no_payload_panic (impls : Impls) (hi : NoPayloadPanicImpls impls)
    (ctx : Context) (m : List (String × Value)) :
    processVocab impls ctx m ≠ .error (.panic .termPayloadUnwrap) := by
  rw [processVocab]
  split
  · simp [res_pure]
  · simp [res_pure]
  · refine bind_ne_fail (hi.1 _) ?_
    intro b
    split
    · simp [res_pure]
    · simp
  · simp

/-- The `@language` directive step never reaches the payload-lookup
panic. -/
theorem processLanguage_no_payload_panic (ctx : Context) (m : List (String × Value)) :
    processLanguage ctx m ≠ .error (.panic .termPayloadUnwrap) := by
  rw [processLanguage]
  split <;> simp [res_pure]

/-- Folding one object fragment never reaches the payload-lookup panic:
the loop is fed exactly the fragment's own keys. -/
theorem processObj_no_payload_panic (impls : Impls) (hi : NoPayloadPanicImpls impls)
    (fuel : Nat) (ctx : Context) (m : List (String × Value)) (rc : List String) :
    processObj impls fuel ctx m rc ≠ .error (.panic .termPayloadUnwrap) := by
  have hkeys : ∀ p ∈ m, (alookup m (Prod.fst p)).isSome := by
    intro p hp
    obtain ⟨k, v⟩ := p
    exact alookup_isSome_of_mem hp
  rw [processObj]
  refine bind_ne_fail (processBase_no_payload_panic impls hi ctx m rc) ?_
  intro ctx1
  refine bind_ne_fail (processVocab_no_payload_panic impls hi ctx1 m) ?_
  intro ctx2
  refine bind_ne_fail (processLanguage_no_payload_panic ctx2 m) ?_
  intro ctx3
  refine bind_ne_fail (defineLoop_no_payload_panic impls hi fuel m m ctx3 [] hkeys) ?_
  rintro ⟨c, d⟩
  simp [res_pure]

/-- The fragment loop never reaches the payload-lookup panic. -/
theorem processLoop_no_payload_panic (impls : Impls) (hi : NoPayloadPanicImpls impls)
    (fuel : Nat) :
    ∀ (frags : List Value) (ctx : Context) (rc : List String),
      processLoop impls fuel ctx frags rc ≠ .error (.panic .termPayloadUnwrap) := by
  intro frags
  induction frags with
  | nil => intro ctx rc; simp [processLoop]
  | cons c rest ih =>
    intro ctx rc
    cases c with
    | null => rw [processLoop]; exact ih _ _
    | bool b => simp [processLoop]
    | num k => simp [processLoop]
    | str s => simp [processLoop]
    | arr xs => simp [processLoop]
    | obj m =>
      rw [processLoop]
      refine bind_ne_fail (processObj_no_payload_panic impls hi fuel _ _ _) ?_
      intro ctx1
      exact ih _ _

/-- Context processing never reaches the payload-lookup panic, for any
predicate parameter whose own results avoid it. -/
theorem process_no_payload_panic (impls : Impls) (hi : NoPayloadPanicImpls impls)
    (fuel : Nat) (ctx : Context) (v : Value) (rc : List String) :
    process impls fuel ctx v rc ≠ .error (.panic .termPayloadUnwrap) :=
  processLoop_no_payload_panic impls hi fuel _ _ _

/-- C9: every invocation of the Term Definer — the Context Builder's
per-key loop as well as every recursive invocation triggered by the
Identifier Resolver or by prefix handling — passes a term that is a key
of the local fragment map, so the definer's unconditional lookup of the
term's payload always finds a value: for every fuel, context, local
context and remote-context list, `process` never fails with the
payload-lookup panic, both for the source's stubbed predicates and for
the spec-modelled ones. -/
theorem c9_term_lookup_never_panics :
    ∀ (fuel : Nat) (ctx : Context) (local_context : Value)
      (remote_contexts : List String),
      process srcImpls fuel ctx local_context remote_contexts ≠
        .error (.panic .termPayloadUnwrap) ∧
      process specImpls fuel ctx local_context remote_contexts ≠
        .error (.panic .termPayloadUnwrap) :=
  fun fuel ctx v rc =>
    ⟨process_no_payload_panic srcImpls
        ⟨fun _ => by simp [srcImpls], fun _ => by simp [srcImpls]⟩ fuel ctx v rc,
      process_no_payload_panic specImpls
        ⟨fun _ => by simp [specImpls], fun _ => by simp [specImpls]⟩ fuel ctx v rc⟩
